import Mathlib

/-!
Verification of the ColorConnect resident-directory pipeline.

This file gives a shallow embedding of the core logic of
`src/colorconnect/src/App.tsx`: the resident record type, the mock seed
roster, the directory filter/sort pipeline (`filtered`), the summary
counts (`openCount`, `newCount`), the localStorage loaders, the message
thread store (`send`), and the administrative mutations (`addResident`,
`toggleResidentGreen`, `toggleResidentNewFlag`).  JavaScript strings are
modelled as Lean `String`; `localeCompare` is modelled as code-point
lexicographic comparison; `Array.prototype.sort` (stable in ES2019+) is
modelled by Mathlib's stable `List.insertionSort`; `Math.random`,
`Date.now`, `localStorage` and `JSON.parse` are modelled as explicit
parameters.
-/

/-- One community member record (type `Resident` in App.tsx). -/
structure Resident where
  id : String
  name : String
  photo : Option String := none
  bio : String
  newResident : Bool
  green : Bool
deriving DecidableEq, Repr

/-- One chat message (type `Message` in App.tsx). -/
structure Message where
  id : String
  fromMe : Bool
  text : String
  ts : Nat
deriving DecidableEq, Repr

/-- The thread store keyed by resident id (type `ThreadMap` in App.tsx):
a JavaScript object modelled as an association list. -/
abbrev ThreadMap := List (String × List Message)

/-- Model of JavaScript `String.prototype.trim`: drop leading and trailing
whitespace. -/
def trimStr (s : String) : String :=
  String.mk (((s.data.dropWhile Char.isWhitespace).reverse.dropWhile Char.isWhitespace).reverse)

/-- Model of JavaScript `String.prototype.toLowerCase`. -/
def lowerStr (s : String) : String :=
  String.mk (s.data.map Char.toLower)

/-- Helper for substring containment: does `sub` occur contiguously in the
given character list. -/
def containsAux (sub : List Char) : List Char → Bool
  | [] => sub.isEmpty
  | c :: rest => sub.isPrefixOf (c :: rest) || containsAux sub rest

/-- Model of JavaScript `String.prototype.includes`. -/
def strContains (hay sub : String) : Bool :=
  containsAux sub.data hay.data

/-- Case-insensitive substring containment, as worded by the spec. -/
def ciContains (hay sub : String) : Bool :=
  strContains (lowerStr hay) (lowerStr sub)

/-- The mock seed roster `MOCK_RESIDENTS` of App.tsx (lines 116-129). -/
def MOCK_RESIDENTS : List Resident :=
  [ { id := "1", name := "Cathy M.", bio := "Pickleball, gardening, morning walks.", newResident := true, green := true },
    { id := "2", name := "Ron H.", bio := "Chess club, woodworking, classic rock.", newResident := false, green := false },
    { id := "3", name := "Irene M.", bio := "Bible study, quilting, tea socials.", newResident := true, green := true },
    { id := "4", name := "Luis P.", bio := "Cycling, travel stories, coffee chats.", newResident := false, green := true },
    { id := "5", name := "Bev K.", bio := "Book club, birding, volunteer events.", newResident := false, green := false },
    { id := "6", name := "Samir A.", bio := "Photography, tech help, documentaries.", newResident := false, green := true },
    { id := "7", name := "Alice T.", bio := "Cards night, scrapbooking, baking.", newResident := true, green := false },
    { id := "8", name := "George W.", bio := "Fishing, handyman tips, history.", newResident := false, green := false },
    { id := "9", name := "Nina R.", bio := "Yoga, farmers market, piano.", newResident := false, green := true },
    { id := "10", name := "Harold J.", bio := "Model trains, trivia, BBQs.", newResident := false, green := false },
    { id := "11", name := "Pat S.", bio := "Walking group, cinema, puzzles.", newResident := true, green := true },
    { id := "12", name := "Kim F.", bio := "Art class, museums, brunch.", newResident := false, green := false } ]

/-- The view filter state: the `query`, `greenOnly` and `newOnly`
React state variables of App.tsx. -/
structure FilterState where
  query : String
  greenOnly : Bool
  newOnly : Bool
deriving DecidableEq, Repr

/-- The comparator passed to `.sort` in App.tsx lines 364-368.
`localeCompare` on names is modelled as code-point lexicographic
comparison returning -1, 0 or 1. -/
def residentCmp (a b : Resident) : Int :=
  if a.green ≠ b.green then (if a.green then -1 else 1)
  else if a.newResident ≠ b.newResident then (if a.newResident then -1 else 1)
  else if a.name < b.name then -1 else if b.name < a.name then 1 else 0

/-- The non-strict order induced by `residentCmp`: a comes no later than b. -/
def residentLe (a b : Resident) : Prop := residentCmp a b ≤ 0

instance : DecidableRel residentLe :=
  fun a b => inferInstanceAs (Decidable (residentCmp a b ≤ 0))

/-- The normalised query `const q = query.trim().toLowerCase()` of
App.tsx line 358. -/
def qNorm (query : String) : String := lowerStr (trimStr query)

/-- The query filter predicate of App.tsx line 362. -/
def queryKeep (query : String) (p : Resident) : Bool :=
  if qNorm query ≠ "" then
    strContains (lowerStr p.name) (qNorm query) || strContains (lowerStr p.bio) (qNorm query)
  else true

/-- The directory filter/sort pipeline, the `filtered` memo of App.tsx
lines 357-369 (identical at lines 1469-1481): filter by availability,
by new-resident flag and by query, then stable-sort by the comparator.
The `.slice()` copy is a no-op on immutable lists. -/
def filtered (people : List Resident) (F : FilterState) : List Resident :=
  List.insertionSort residentLe
    (((people.filter (fun p => if F.greenOnly then p.green else true)).filter
        (fun p => if F.newOnly then p.newResident else true)).filter
      (queryKeep F.query))

/-- The `openCount` memo of App.tsx line 330 (identical at line 1450):
the number of residents whose green light is on.  Neither variant adds
the viewer's own status. -/
def openCount (people : List Resident) : Nat :=
  (people.filter (fun p => p.green)).length

/-- The `newCount` memo of App.tsx line 331 (identical at line 1451). -/
def newCount (people : List Resident) : Nat :=
  (people.filter (fun p => p.newResident)).length

/-- A JSON value, the possible results of `JSON.parse`. -/
inductive JsonValue where
  | null : JsonValue
  | bool : Bool → JsonValue
  | num : Int → JsonValue
  | str : String → JsonValue
  | arr : List JsonValue → JsonValue
  | obj : List (String × JsonValue) → JsonValue

/-- The strict comparison `parsedValue === true` used by `loadMyStatus`. -/
def isTrueJson : JsonValue → Bool
  | JsonValue.bool true => true
  | _ => false

/-- The `loadThreads` helper of App.tsx lines 30-37.  The localStorage
slot is modelled as `Option String` (`none` = absent) and `JSON.parse`
as an explicit fallible decoder; a thrown decode error is caught and the
empty map returned.  An empty string is falsy in JavaScript, so the
`raw ? ... : ...` conditional also yields the default for it. -/
def loadThreads (slot : Option String) (decode : String → Except String ThreadMap) : ThreadMap :=
  match slot with
  | none => []
  | some raw =>
    if raw = "" then []
    else
      match decode raw with
      | Except.ok t => t
      | Except.error _ => []

/-- The `loadPeople` helper of App.tsx lines 60-67: defaults to the
seed roster `MOCK_RESIDENTS`. -/
def loadPeople (slot : Option String) (decode : String → Except String (List Resident)) : List Resident :=
  match slot with
  | none => MOCK_RESIDENTS
  | some raw =>
    if raw = "" then MOCK_RESIDENTS
    else
      match decode raw with
      | Except.ok l => l
      | Except.error _ => MOCK_RESIDENTS

/-- The `loadMyStatus` helper of App.tsx lines 45-52: the stored value
must strictly equal `true`; absence and decode failure default to
`true`. -/
def loadMyStatus (slot : Option String) (decode : String → Except String JsonValue) : Bool :=
  match slot with
  | none => true
  | some raw =>
    if raw = "" then true
    else
      match decode raw with
      | Except.ok v => isTrueJson v
      | Except.error _ => true

/-- JavaScript property access `prev[k]` on the thread map. -/
def lookupKey : ThreadMap → String → Option (List Message)
  | [], _ => none
  | e :: rest, k => if e.1 = k then some e.2 else lookupKey rest k

/-- The expression `prev[residentId] || []` of App.tsx line 143. -/
def readThread (tm : ThreadMap) (rid : String) : List Message :=
  (lookupKey tm rid).getD []

/-- The object spread update of App.tsx line 143: an existing key keeps
its position and gets the new value, a fresh key is appended at the
end. -/
def setKey (tm : ThreadMap) (k : String) (v : List Message) : ThreadMap :=
  if (lookupKey tm k).isSome then tm.map (fun e => if e.1 = k then (k, v) else e)
  else tm ++ [(k, v)]

/-- The `send` function of App.tsx lines 136-144.  The random message id
and the `Date.now()` timestamp are modelled as explicit parameters;
`fromMe` is always `true`. -/
def send (tm : ThreadMap) (residentId msgId text : String) (ts : Nat) : ThreadMap :=
  setKey tm residentId
    (readThread tm residentId ++ [{ id := msgId, fromMe := true, text := text, ts := ts }])

/-- The `toggleResidentGreen` mutation of App.tsx lines 374-375. -/
def toggleResidentGreen (rid : String) (list : List Resident) : List Resident :=
  list.map (fun p => if p.id = rid then { p with green := !p.green } else p)

/-- The `toggleResidentNewFlag` mutation of App.tsx lines 377-378. -/
def toggleResidentNewFlag (rid : String) (list : List Resident) : List Resident :=
  list.map (fun p => if p.id = rid then { p with newResident := !p.newResident } else p)

/-- The `addResident` mutation of App.tsx lines 384-403, restricted to
its effect on the resident collection: the random id is an explicit
parameter, and the form-state resets touch no resident data.
`!name || !bio` in JavaScript is true exactly when one of the trimmed
strings is empty. -/
def addResident (list : List Resident) (newName newBio : String)
    (newGreen newFlaggedNew : Bool) (newId : String) : List Resident :=
  let name := trimStr newName
  let bio := trimStr newBio
  if name = "" ∨ bio = "" then list
  else list ++ [{ id := newId, name := name, bio := bio, newResident := newFlaggedNew, green := newGreen }]

/-- The naive reference predicate of spec section 8 and claim C1, reading
the spec's words literally: each active predicate uses the raw query. -/
def specNaiveKeep (F : FilterState) (p : Resident) : Prop :=
  (F.greenOnly = true → p.green = true) ∧
  (F.newOnly = true → p.newResident = true) ∧
  (F.query ≠ "" → (ciContains p.name F.query = true ∨ ciContains p.bio F.query = true))

instance (F : FilterState) (p : Resident) : Decidable (specNaiveKeep F p) := by
  unfold specNaiveKeep
  infer_instance

/-- The reference predicate amended to apply the query predicate to the
trimmed query, as the code does. -/
def specTrimmedKeep (F : FilterState) (p : Resident) : Prop :=
  specNaiveKeep { query := trimStr F.query, greenOnly := F.greenOnly, newOnly := F.newOnly } p

/-- The conjunction of the three filter predicates of App.tsx lines
360-362. -/
def keepB (F : FilterState) (p : Resident) : Bool :=
  (if F.greenOnly then p.green else true) &&
    ((if F.newOnly then p.newResident else true) && queryKeep F.query p)

/-- The pairwise ordering law stated by claim C2. -/
def orderLaw (a b : Resident) : Prop :=
  (a.green ≠ b.green → a.green = true) ∧
  (a.green = b.green → a.newResident ≠ b.newResident → a.newResident = true) ∧
  (a.green = b.green → a.newResident = b.newResident → a.name ≤ b.name)

/-- Membership in one comparator-equivalence class: same availability,
same new-resident flag, same name. -/
def sameKey (g w : Bool) (n : String) (p : Resident) : Bool :=
  p.green == g && p.newResident == w && p.name == n

/-- A single-resident roster used in concrete counterexamples: neither
name nor bio contains a space. -/
def bobR : Resident :=
  { id := "1", name := "Bob", bio := "x", newResident := false, green := false }

/-- A filter state whose query is a single space. -/
def spaceF : FilterState := { query := " ", greenOnly := false, newOnly := false }

/-- A string is empty exactly when its character list is empty. -/
theorem data_eq_nil_iff {s : String} : s.data = [] ↔ s = "" := by
  constructor
  · intro h
    cases s with
    | mk d => exact congrArg String.mk (h : d = [])
  · intro h
    rw [h]

/-- Lowercasing preserves emptiness. -/
theorem lowerStr_eq_empty {s : String} : lowerStr s = "" ↔ s = "" := by
  unfold lowerStr
  constructor
  · intro h
    have h2 : s.data.map Char.toLower = [] := by
      have := congrArg String.data h
      simpa using this
    exact data_eq_nil_iff.mp (List.map_eq_nil_iff.mp h2)
  · intro h
    rw [h]
    rfl

/-- An `availableOnly`-style guard equals `true` exactly when the guarded
implication holds. -/
theorem if_flag_iff (flag b : Bool) : (if flag then b else true) = true ↔ (flag = true → b = true) := by
  cases flag <;> simp

/-- Characterisation of the query predicate: the code keeps a resident
exactly when the trimmed query is empty or matches the name or bio
case-insensitively. -/
theorem queryKeep_iff (query : String) (p : Resident) :
    queryKeep query p = true ↔
      (trimStr query = "" ∨ ciContains p.name (trimStr query) = true ∨
        ciContains p.bio (trimStr query) = true) := by
  have hq : qNorm query = lowerStr (trimStr query) := rfl
  by_cases ht : trimStr query = ""
  · have h0 : qNorm query = "" := by rw [hq, ht]; rfl
    simp [queryKeep, h0, ht]
  · have h0 : qNorm query ≠ "" := by
      rw [hq]
      exact fun e => ht (lowerStr_eq_empty.mp e)
    rw [queryKeep, if_pos h0]
    unfold ciContains
    rw [← hq]
    simp [ht]

/-- The combined code-side keep predicate agrees with the amended
spec-side predicate. -/
theorem keepB_iff (F : FilterState) (p : Resident) :
    keepB F p = true ↔ specTrimmedKeep F p := by
  unfold keepB specTrimmedKeep specNaiveKeep
  rw [Bool.and_eq_true, Bool.and_eq_true, if_flag_iff, if_flag_iff, queryKeep_iff]
  constructor
  · rintro ⟨h1, h2, h3⟩
    refine ⟨h1, h2, fun hne => ?_⟩
    rcases h3 with h | h
    · exact absurd h hne
    · exact h
  · rintro ⟨h1, h2, h3⟩
    refine ⟨h1, h2, ?_⟩
    by_cases hq : trimStr F.query = ""
    · exact Or.inl hq
    · exact Or.inr (h3 hq)

/-- The pipeline fused into a single filter followed by the stable
sort. -/
theorem filtered_eq (R : List Resident) (F : FilterState) :
    filtered R F = List.insertionSort residentLe (R.filter (keepB F)) := by
  unfold filtered keepB
  rw [List.filter_filter, List.filter_filter]
  congr 1
  apply List.filter_congr
  intro p _
  cases hq : queryKeep F.query p <;>
    cases hg : (if F.greenOnly then p.green else true) <;>
      cases hn : (if F.newOnly then p.newResident else true) <;> rfl

/-- Claim C1, as literally stated, is false: with the whitespace-only
query " " and a roster whose single resident contains no space in name
or bio, the pipeline keeps the resident although the naive reference
predicate (matching the raw query) rejects them. -/
theorem filter_set_equiv_raw_query_cex :
    bobR ∈ filtered [bobR] spaceF ∧ ¬ specNaiveKeep spaceF bobR := by
  decide

/-- Claim C1 (amended): the pipeline output contains exactly the
residents of the input roster that satisfy every active predicate, where
the query predicate is applied to the trimmed query: set equivalence
with the naively filtered reference set. -/
theorem filter_set_equiv (R : List Resident) (F : FilterState) (p : Resident) :
    p ∈ filtered R F ↔ p ∈ R ∧ specTrimmedKeep F p := by
  rw [filtered_eq, List.mem_insertionSort, List.mem_filter, keepB_iff]

/-- Claim C3, as literally stated, is false: the whitespace-only query
" " is non-empty, yet the filtering step keeps a resident whose name and
bio do not contain a space, because the code trims the query first. -/
theorem query_filter_raw_cex :
    queryKeep " " bobR = true ∧
      ¬ (ciContains bobR.name " " = true ∨ ciContains bobR.bio " " = true) := by
  decide

/-- Claim C3 (amended): in the filtering step the query is trimmed
first; if the trimmed query is empty (in particular for empty or
whitespace-only queries) every resident is kept, and otherwise exactly
the residents whose name or bio contains the trimmed query
case-insensitively are kept. -/
theorem query_filter_spec (query : String) (p : Resident) :
    queryKeep query p = true ↔
      (trimStr query = "" ∨ ciContains p.name (trimStr query) = true ∨
        ciContains p.bio (trimStr query) = true) :=
  queryKeep_iff query p

/-- Claim C4: `newCount` is the number of residents with the
new-resident flag set and `openCount` is the number of residents with
the green light on.  The code adds no separate term for the viewer's own
status, fixing the policy the spec leaves open as "the viewer is not
counted separately from the roster". -/
theorem summary_counts (people : List Resident) :
    openCount people = people.countP (fun p => p.green) ∧
      newCount people = people.countP (fun p => p.newResident) := by
  unfold openCount newCount
  exact ⟨(List.countP_eq_length_filter _ people).symm, (List.countP_eq_length_filter _ people).symm⟩

/-- Claim C6: the pipeline and the summary counts are deterministic pure
functions: two runs on equal inputs produce equal outputs, with no
dependence on randomness or time. -/
theorem pipeline_deterministic (R R' : List Resident) (F F' : FilterState)
    (hR : R = R') (hF : F = F') :
    filtered R F = filtered R' F' ∧ openCount R = openCount R' ∧ newCount R = newCount R' := by
  subst hR; subst hF
  exact ⟨rfl, rfl, rfl⟩

/-- Witness for claim C6 at a concrete input. -/
theorem pipeline_deterministic_witness :
    filtered MOCK_RESIDENTS { query := "", greenOnly := true, newOnly := false } =
        filtered MOCK_RESIDENTS { query := "", greenOnly := true, newOnly := false } ∧
      openCount MOCK_RESIDENTS = openCount MOCK_RESIDENTS ∧
      newCount MOCK_RESIDENTS = newCount MOCK_RESIDENTS :=
  pipeline_deterministic MOCK_RESIDENTS MOCK_RESIDENTS
    { query := "", greenOnly := true, newOnly := false }
    { query := "", greenOnly := true, newOnly := false } rfl rfl

/-- Claim C7: every persisted-slot loader is total by construction and
substitutes its documented default instead of propagating an error: when
its slot is absent or its text fails to decode, `loadThreads` returns
the empty thread map, `loadPeople` returns the seed roster
`MOCK_RESIDENTS`, and `loadMyStatus` returns `true`. -/
theorem loaders_default (sT sP sB : Option String)
    (dT : String → Except String ThreadMap)
    (dP : String → Except String (List Resident))
    (dB : String → Except String JsonValue) :
    ((sT = none ∨ ∃ raw e, sT = some raw ∧ dT raw = Except.error e) →
        loadThreads sT dT = []) ∧
      ((sP = none ∨ ∃ raw e, sP = some raw ∧ dP raw = Except.error e) →
        loadPeople sP dP = MOCK_RESIDENTS) ∧
      ((sB = none ∨ ∃ raw e, sB = some raw ∧ dB raw = Except.error e) →
        loadMyStatus sB dB = true) := by
  refine ⟨?_, ?_, ?_⟩
  · rintro (rfl | ⟨raw, e, rfl, herr⟩)
    · rfl
    · by_cases hr : raw = "" <;> simp [loadThreads, hr, herr]
  · rintro (rfl | ⟨raw, e, rfl, herr⟩)
    · rfl
    · by_cases hr : raw = "" <;> simp [loadPeople, hr, herr]
  · rintro (rfl | ⟨raw, e, rfl, herr⟩)
    · rfl
    · by_cases hr : raw = "" <;> simp [loadMyStatus, hr, herr]

/-- Witness for claim C7: absent slots and an always-failing decoder. -/
theorem loaders_default_witness :
    loadThreads none (fun _ => Except.error "bad") = [] ∧
      loadPeople none (fun _ => Except.error "bad") = MOCK_RESIDENTS ∧
      loadMyStatus none (fun _ => Except.error "bad") = true := by
  obtain ⟨h1, h2, h3⟩ :=
    loaders_default none none none (fun _ => Except.error "bad")
      (fun _ => Except.error "bad") (fun _ => Except.error "bad")
  exact ⟨h1 (Or.inl rfl), h2 (Or.inl rfl), h3 (Or.inl rfl)⟩

/-- Claim C9: `addResident` is a no-op on the collection whenever the
entered name or bio trims to the empty string; otherwise it appends
exactly one resident carrying the trimmed name, trimmed bio and the
chosen flags at the end, leaving all existing residents unchanged. -/
theorem addResident_spec (list : List Resident) (nm bio : String)
    (g n : Bool) (newId : String) :
    ((trimStr nm = "" ∨ trimStr bio = "") → addResident list nm bio g n newId = list) ∧
      (trimStr nm ≠ "" → trimStr bio ≠ "" →
        addResident list nm bio g n newId =
          list ++ [{ id := newId, name := trimStr nm, bio := trimStr bio,
                     newResident := n, green := g }]) := by
  constructor
  · intro h
    simp only [addResident]
    rw [if_pos h]
  · intro h1 h2
    simp only [addResident]
    rw [if_neg (by rintro (h | h) <;> [exact h1 h; exact h2 h])]

/-- Witness for claim C9: a blank name is rejected with no partial
effect; a padded name and bio are trimmed and appended. -/
theorem addResident_spec_witness :
    addResident [bobR] "  " "gardening" true false "9" = [bobR] ∧
      addResident [bobR] " Al " "walks" true false "9" =
        [bobR] ++ [{ id := "9", name := "Al", bio := "walks",
                     newResident := false, green := true }] := by
  constructor
  · exact (addResident_spec [bobR] "  " "gardening" true false "9").1 (Or.inl (by decide))
  · rw [(addResident_spec [bobR] " Al " "walks" true false "9").2 (by decide) (by decide)]
    decide

/-- Claim C10: the two per-resident toggles preserve the collection's
length and order; a resident whose id differs from the argument is
completely unchanged, and a resident whose id matches changes only the
toggled flag, to its boolean negation. -/
theorem toggles_frame (list : List Resident) (rid : String) :
    (toggleResidentGreen rid list).length = list.length ∧
      (toggleResidentNewFlag rid list).length = list.length ∧
      ∀ i : Nat, ∀ p : Resident, list[i]? = some p →
        (toggleResidentGreen rid list)[i]? =
            some (if p.id = rid then { p with green := !p.green } else p) ∧
          (toggleResidentNewFlag rid list)[i]? =
            some (if p.id = rid then { p with newResident := !p.newResident } else p) := by
  refine ⟨List.length_map .., List.length_map .., ?_⟩
  intro i p hp
  constructor <;> simp [toggleResidentGreen, toggleResidentNewFlag, List.getElem?_map, hp]

/-- Witness for claim C10 on a concrete two-resident roster. -/
theorem toggles_frame_witness :
    (toggleResidentGreen "1" [bobR]).length = [bobR].length ∧
      (toggleResidentNewFlag "1" [bobR]).length = [bobR].length ∧
      ((toggleResidentGreen "1" [bobR])[0]? =
          some (if bobR.id = "1" then { bobR with green := !bobR.green } else bobR) ∧
        (toggleResidentNewFlag "1" [bobR])[0]? =
          some (if bobR.id = "1" then { bobR with newResident := !bobR.newResident } else bobR)) := by
  obtain ⟨h1, h2, h3⟩ := toggles_frame [bobR] "1"
  exact ⟨h1, h2, h3 0 bobR rfl⟩

/-- Characterisation of the comparator's non-strict order: a sorts no
later than b exactly when a is green and b is not, or the green flags
tie and a is new while b is not, or both flags tie and a's name is
lexicographically no greater. -/
theorem residentLe_iff {a b : Resident} :
    residentLe a b ↔
      ((a.green = true ∧ b.green = false) ∨
        (a.green = b.green ∧
          ((a.newResident = true ∧ b.newResident = false) ∨
            (a.newResident = b.newResident ∧ a.name ≤ b.name)))) := by
  unfold residentLe residentCmp
  rcases lt_trichotomy a.name b.name with h | h | h
  · cases hag : a.green <;> cases hbg : b.green <;>
      cases han : a.newResident <;> cases hbn : b.newResident <;>
        simp [h, le_of_lt h, lt_asymm h]
  · cases hag : a.green <;> cases hbg : b.green <;>
      cases han : a.newResident <;> cases hbn : b.newResident <;>
        simp [h, lt_irrefl, le_refl]
  · cases hag : a.green <;> cases hbg : b.green <;>
      cases han : a.newResident <;> cases hbn : b.newResident <;>
        simp [h, lt_asymm h, not_le.mpr h]

/-- The comparator order is total. -/
theorem residentLe_total (a b : Resident) : residentLe a b ∨ residentLe b a := by
  rw [residentLe_iff, residentLe_iff]
  cases hag : a.green <;> cases hbg : b.green <;>
    cases han : a.newResident <;> cases hbn : b.newResident <;>
      simp <;> exact le_total a.name.data b.name.data

/-- The comparator order is transitive. -/
theorem residentLe_trans (a b c : Resident)
    (hab : residentLe a b) (hbc : residentLe b c) : residentLe a c := by
  rw [residentLe_iff] at hab hbc ⊢
  cases hag : a.green <;> cases hbg : b.green <;> cases hcg : c.green <;>
    cases han : a.newResident <;> cases hbn : b.newResident <;> cases hcn : c.newResident <;>
      simp_all <;> exact le_trans hab hbc

instance : IsTotal Resident residentLe := ⟨residentLe_total⟩

instance : IsTrans Resident residentLe := ⟨residentLe_trans⟩

/-- Two adjacent results of the comparator order satisfy the claim's
ordering law. -/
theorem residentLe_orderLaw {a b : Resident} (h : residentLe a b) : orderLaw a b := by
  rw [residentLe_iff] at h
  unfold orderLaw
  cases hag : a.green <;> cases hbg : b.green <;>
    cases han : a.newResident <;> cases hbn : b.newResident <;> simp_all

/-- Residents in the same comparator-equivalence class are mutually
ordered. -/
theorem rle_of_sameKey {a b : Resident} (hg : a.green = b.green)
    (hn : a.newResident = b.newResident) (hm : a.name = b.name) : residentLe a b :=
  residentLe_iff.mpr (Or.inr ⟨hg, Or.inr ⟨hn, hm.le⟩⟩)

/-- Claim C2: any two residents in the pipeline output satisfy the
ordering law (available first, then new residents, then name ascending),
and the sort is stable: within each tie class (same availability, same
new-resident flag, identical name) the output preserves the residents'
original relative order from the filtered input. -/
theorem ordering_law (R : List Resident) (F : FilterState) :
    List.Pairwise orderLaw (filtered R F) ∧
      ∀ g w : Bool, ∀ n : String,
        (filtered R F).filter (sameKey g w n) =
          (R.filter (keepB F)).filter (sameKey g w n) := by
  constructor
  · rw [filtered_eq]
    exact (List.sorted_insertionSort residentLe _).imp (fun h => residentLe_orderLaw h)
  · intro g w n
    rw [filtered_eq]
    have hsub : List.Sublist ((R.filter (keepB F)).filter (sameKey g w n)) (R.filter (keepB F)) :=
      List.filter_sublist _
    have hpw : ((R.filter (keepB F)).filter (sameKey g w n)).Pairwise residentLe := by
      apply List.pairwise_of_forall_mem_list
      intro x hx y hy
      have hxk := (List.mem_filter.mp hx).2
      have hyk := (List.mem_filter.mp hy).2
      unfold sameKey at hxk hyk
      simp only [Bool.and_eq_true, beq_iff_eq] at hxk hyk
      exact rle_of_sameKey (hxk.1.1.trans hyk.1.1.symm) (hxk.1.2.trans hyk.1.2.symm)
        (hxk.2.trans hyk.2.symm)
    have hall : ∀ x ∈ (R.filter (keepB F)).filter (sameKey g w n), sameKey g w n x = true :=
      fun x hx => (List.mem_filter.mp hx).2
    have h1 : List.Sublist ((R.filter (keepB F)).filter (sameKey g w n))
        ((List.insertionSort residentLe (R.filter (keepB F))).filter (sameKey g w n)) := by
      have h2 := (List.sublist_insertionSort hpw hsub).filter (sameKey g w n)
      rwa [List.filter_eq_self.mpr hall] at h2
    have hperm : List.Perm
        ((List.insertionSort residentLe (R.filter (keepB F))).filter (sameKey g w n))
        ((R.filter (keepB F)).filter (sameKey g w n)) :=
      (List.perm_insertionSort residentLe _).filter _
    exact (h1.eq_of_length hperm.length_eq.symm).symm

/-- Claim C5: the pipeline is idempotent: re-applying it to its own
output with the same filter state returns the identical ordered list. -/
theorem pipeline_idempotent (R : List Resident) (F : FilterState) :
    filtered (filtered R F) F = filtered R F := by
  have hmem : ∀ x ∈ filtered R F, keepB F x = true := by
    intro x hx
    rw [filtered_eq] at hx
    exact (List.mem_filter.mp ((List.mem_insertionSort residentLe).mp hx)).2
  have hsorted : List.Sorted residentLe (filtered R F) := by
    rw [filtered_eq]
    exact List.sorted_insertionSort residentLe _
  rw [filtered_eq (filtered R F) F, List.filter_eq_self.mpr hmem]
  exact hsorted.insertionSort_eq

/-- Replacing the value at an existing key is observed by a lookup of
that key. -/
theorem lookup_replace_self (tm : ThreadMap) (k : String) (v : List Message)
    (h : (lookupKey tm k).isSome) :
    lookupKey (tm.map (fun e => if e.1 = k then (k, v) else e)) k = some v := by
  induction tm with
  | nil => simp [lookupKey] at h
  | cons e rest ih =>
    by_cases he : e.1 = k
    · simp [lookupKey, he]
    · have h2 : (lookupKey rest k).isSome := by
        simpa [lookupKey, he] using h
      simp [lookupKey, he, ih h2]

/-- Replacing the value at one key leaves lookups of other keys
unchanged. -/
theorem lookup_replace_other (tm : ThreadMap) (k : String) (v : List Message)
    (other : String) (hne : other ≠ k) :
    lookupKey (tm.map (fun e => if e.1 = k then (k, v) else e)) other = lookupKey tm other := by
  induction tm with
  | nil => simp [lookupKey]
  | cons e rest ih =>
    by_cases he : e.1 = k
    · have hko : ¬ (k = other) := fun h2 => hne h2.symm
      have heo : ¬ (e.1 = other) := by rw [he]; exact hko
      simp [lookupKey, he, hko, heo, ih]
    · by_cases heo : e.1 = other
      · simp [lookupKey, he, heo, hne]
      · simp [lookupKey, he, heo, ih]

/-- A successful lookup is unaffected by appending entries. -/
theorem lookup_append_left (tm l2 : ThreadMap) (other : String) (x : List Message)
    (h : lookupKey tm other = some x) : lookupKey (tm ++ l2) other = some x := by
  induction tm with
  | nil => simp [lookupKey] at h
  | cons e rest ih =>
    by_cases heo : e.1 = other
    · simpa [lookupKey, heo] using h
    · rw [lookupKey, if_neg heo] at h
      simpa [lookupKey, heo] using ih h

/-- Looking up a key absent from the prefix reaches the appended
entry. -/
theorem lookup_append_of_none (tm : ThreadMap) (k : String) (v : List Message)
    (other : String) (h : lookupKey tm other = none) :
    lookupKey (tm ++ [(k, v)]) other = if k = other then some v else none := by
  induction tm with
  | nil => simp [lookupKey]
  | cons e rest ih =>
    by_cases heo : e.1 = other
    · rw [lookupKey, if_pos heo] at h
      exact absurd h (by simp)
    · rw [lookupKey, if_neg heo] at h
      simpa [lookupKey, heo] using ih h

/-- Claim C8: threads are append-only: after `send`, the thread for the
target resident id equals the previous thread (empty if none existed)
with exactly the one new message appended at the end, and every thread
keyed by any other resident id is unchanged. -/
theorem send_appends (tm : ThreadMap) (rid mid text : String) (ts : Nat) :
    readThread (send tm rid mid text ts) rid =
        readThread tm rid ++ [{ id := mid, fromMe := true, text := text, ts := ts }] ∧
      ∀ other : String, other ≠ rid →
        readThread (send tm rid mid text ts) other = readThread tm other := by
  unfold send setKey
  by_cases h : (lookupKey tm rid).isSome
  · rw [if_pos h]
    constructor
    · unfold readThread
      rw [lookup_replace_self tm rid _ h]
      rfl
    · intro other hne
      unfold readThread
      rw [lookup_replace_other tm rid _ other hne]
  · rw [if_neg h]
    have hnone : lookupKey tm rid = none := Option.not_isSome_iff_eq_none.mp h
    constructor
    · unfold readThread
      rw [lookup_append_of_none _ _ _ _ hnone, if_pos rfl]
      rfl
    · intro other hne
      unfold readThread
      cases hother : lookupKey tm other with
      | some x => rw [lookup_append_left _ _ _ _ hother]
      | none =>
        rw [lookup_append_of_none _ _ _ _ hother, if_neg (fun h2 => hne h2.symm)]

/-- Witness for claim C8: sending into an empty store creates the
one-message thread for "1" and leaves the thread for "2" empty. -/
theorem send_appends_witness :
    readThread (send [] "1" "m" "hello" 7) "1" =
        readThread ([] : ThreadMap) "1" ++ [{ id := "m", fromMe := true, text := "hello", ts := 7 }] ∧
      readThread (send [] "1" "m" "hello" 7) "2" = readThread ([] : ThreadMap) "2" :=
  ⟨(send_appends [] "1" "m" "hello" 7).1,
    (send_appends [] "1" "m" "hello" 7).2 "2" (by decide)⟩
